import Mathlib

/-!
Verification development for the snipe terminal messaging client
(display/input core: `snipe/ttyfe.py` and `snipe/context.py`).

The Python source is shallowly embedded below:

* pure rendering helpers (`TTYRenderer.width`, `TTYRenderer.doline`,
  `TTYRenderer.chunksize`) become Lean functions over `List Char`/`String`,
  with Python exceptions modelled as `Except String` errors;
* `Location.shift` and `TTYRenderer.reframe` become functions over an
  explicit content model (the pull-based `view` collaborator of the window is
  data: a list of chunks, one per content item);
* the window-stack operations of `TTYFrontend` become functions on an
  explicit frontend state record, returning the post state together with
  an optional uncaught Python exception (mutations performed before a
  raise are kept, as in the source);
* `Keymap` (the key-sequence grammar of `Keymap.split` and the nested
  insert/lookup/delete of `__setitem__`/`__getitem__`/`__delitem__`)
  and `Window.input_char` become functions over an association-list
  keymap model.

External services used by the source (the `unicodedata` tables, the
`curses` key-name table, `textwrap.wrap`) are modelled by small explicit
tables/functions, noted at each definition; every concrete input used in
a theorem below stays inside the modelled fragment.
-/

set_option autoImplicit false

namespace Snipe

/-! ### Character widths: `TTYRenderer.width` (ttyfe.py)

`cwidth` follows the width scoring of the source: characters below space
score 0, hangul jamo 0, combining/format characters (category Mn/Me/Cf,
soft hyphen excepted) 0, East-Asian wide/full characters 2, others 1.
The Mn/Me/Cf and east-asian classes come from the external `unicodedata`
tables; they are modelled here by representative ranges (exact on every
character appearing in a theorem below, all of which are ASCII). -/

def isCombiningCat (c : Char) : Bool :=
  0x300 ≤ c.val && c.val ≤ 0x36f

def isEastAsianWide (c : Char) : Bool :=
  (0x1100 ≤ c.val && c.val ≤ 0x115f) ||
  (0x4e00 ≤ c.val && c.val ≤ 0x9fff) ||
  (0xff00 ≤ c.val && c.val ≤ 0xff60)

def cwidth (c : Char) : Nat :=
  if c < ' ' then 0
  else if 0x1160 ≤ c.val && c.val ≤ 0x11ff then 0        -- hangul jamo
  else if isCombiningCat c && c.val ≠ 0xad then 0        -- 00ad = soft hyphen
  else if isEastAsianWide c then 2
  else 1

def strWidth (s : String) : Nat :=
  (s.data.map cwidth).sum

/-! ### `textwrap.wrap` (Python standard library)

`TTYRenderer.doline` calls `textwrap.wrap(s, width)` with default
settings for segments tagged "fill".  Modelled behaviour:
* `width = None` raises `TypeError` (the `self.width <= 0` comparison in
  `_wrap_chunks` fails on `None`);
* `width <= 0` raises `ValueError` ("invalid width", raised
  unconditionally at the top of `_wrap_chunks`);
* otherwise the text is split on whitespace (tabs/newlines replaced,
  whitespace dropped), long words are broken at the width
  (`break_long_words`), and the words are packed greedily into lines
  joined by single spaces.  A whitespace-only text yields `[]`.
The greedy packing is a mild simplification of the CPython `_wrap_chunks`
(hyphen break points are not modelled); no theorem below depends on how
a particular text is packed, only on error behaviour and (non)emptiness. -/

def isPyWS (c : Char) : Bool :=
  c = ' ' || c = '\t' || c = '\n' || c = '\x0b' || c = '\x0c' || c = '\r'

def wordsAux : List Char → List Char → List (List Char)
  | [], cur => if cur = [] then [] else [cur.reverse]
  | c :: cs, cur =>
    if isPyWS c then
      if cur = [] then wordsAux cs [] else cur.reverse :: wordsAux cs []
    else wordsAux cs (c :: cur)

def wordsOf (l : List Char) : List (List Char) := wordsAux l []

def chopWord (w : Nat) : List Char → List (List Char)
  | [] => []
  | c :: cs =>
    if w = 0 then [c :: cs]   -- unreachable: callers check width > 0 first
    else if cs.length + 1 ≤ w then [c :: cs]
    else (c :: cs).take w :: chopWord w ((c :: cs).drop w)
termination_by l => l.length
decreasing_by
  simp only [List.length_drop, List.length_cons]
  omega

def packAux (w : Nat) : List (List Char) → List Char → List (List Char)
  | [], cur => if cur = [] then [] else [cur]
  | p :: ps, cur =>
    if cur = [] then packAux w ps p
    else if cur.length + 1 + p.length ≤ w then packAux w ps (cur ++ ' ' :: p)
    else cur :: packAux w ps p

def textwrapWrap (s : String) (width : Option Int) : Except String (List String) :=
  match width with
  | none => .error "TypeError: unorderable types NoneType and int"
  | some w =>
    if w ≤ 0 then .error "ValueError: invalid width"
    else
      let pieces := (wordsOf s.data).flatMap (chopWord w.toNat)
      .ok ((packAux w.toNat pieces []).map fun l => String.mk l)

/-! ### `TTYRenderer.doline` (ttyfe.py:118-165)

`doline(s, width, remaining, tags)` turns a text run into display lines
with remaining-column bookkeeping.  The Python generator is embedded as
a structural recursion over the character list; the accumulated output
line is `out`, the current column is `col`.

In the source, `col` is ordinarily an `int` but becomes `None` when a
right-tagged segment overflows its first line while `remaining` is
`None` (`col = remaining`); every later arithmetic use of `col` then
raises `TypeError`.  `col` is therefore an `Option Int` here, and each
use site errors on `none` exactly where Python would raise. -/

def dolineLoop (right : Bool) (width : Int) (remaining : Option Int) :
    List Char → String → Int → Option Int → Except String (List (String × Int))
  | [], out, _, col =>
    if out = "" then .ok []
    else
      match col with
      | none => .error "TypeError: col is None"
      | some cl => .ok [(out, width - cl)]
  | c :: cs, out, line, col =>
    if c = '\n' then
      match col with
      | none => .error "TypeError: col is None"
      | some cl =>
        let res : String × Int :=
          if !right then (out, if cl < width then -1 else 0) else (out, width - cl)
        (dolineLoop right width remaining cs "" (line + 1) (some 0)).map (res :: ·)
    else if ' ' ≤ c || c = '\t' then
      match col with
      | none => .error "TypeError: col is None"
      | some cl =>
        let cstr : String :=
          if c = '\t' then String.mk (List.replicate (8 - Int.emod cl 8).toNat ' ')
          else String.mk [c]
        let l : Int := strWidth cstr
        if cl + l > width then
          if right && line = 0 then
            -- yield '', -1 ; col = remaining ; if len(c) > 1: continue
            if cstr.data.length > 1 then
              (dolineLoop right width remaining cs out (line + 1) remaining).map
                (("", -1) :: ·)
            else
              match remaining with
              | none => .error "TypeError: col is None"
              | some r =>
                (dolineLoop right width remaining cs (out ++ cstr) (line + 1)
                  (some (r + l))).map (("", -1) :: ·)
          else
            -- yield out, 0 ; fresh line ; if len(c) > 1: continue
            if cstr.data.length > 1 then
              (dolineLoop right width remaining cs "" (line + 1) (some 0)).map
                ((out, 0) :: ·)
            else
              (dolineLoop right width remaining cs cstr (line + 1) (some l)).map
                ((out, 0) :: ·)
        else
          dolineLoop right width remaining cs (out ++ cstr) line (some (cl + l))
    else
      -- non-printing characters below space: skipped
      dolineLoop right width remaining cs out line col

/-- Initial column: `0 if remaining is None or remaining <= 0 else width - remaining`. -/
def initCol (width : Int) (remaining : Option Int) : Int :=
  match remaining with
  | none => 0
  | some r => if r ≤ 0 then 0 else width - r

def doline (s : String) (width : Int) (remaining : Option Int) (tags : List String) :
    Except String (List (String × Int)) :=
  let right := "right" ∈ tags
  if "fill" ∈ tags then
    let nl := s.endsWith "\n"
    match textwrapWrap s remaining with
    | .error e => .error e
    | .ok ll =>
      match ll with
      | [] => .error "IndexError: list index out of range"
      | l0 :: lrest =>
        match textwrapWrap (String.intercalate " " lrest) (some width) with
        | .error e => .error e
        | .ok ll2 =>
          let s' := String.intercalate "\n" (l0 :: ll2) ++ (if nl then "\n" else "")
          dolineLoop right width remaining s'.data "" 0 (some (initCol width remaining))
  else
    dolineLoop right width remaining s.data "" 0 (some (initCol width remaining))

/-! ### Content model

The content provider of a window (`view(origin, direction)`, an external
collaborator per the spec) is modelled as a list of chunks, one per
content item; anchors are list indices.  A chunk is a list of
`(tag-set, text)` pairs.  `view` yields `(anchor, chunk)` pairs starting
at the origin, inclusive, in the requested direction — exactly the
protocol `Messager.view` implements over the backend walk. -/

abbrev Chunk := List (List String × String)

def viewFrom (content : List Chunk) (i : Nat) (forward : Bool) : List (Nat × Chunk) :=
  if forward then content.enum.drop i
  else (content.enum.take (i + 1)).reverse

/-! ### `TTYRenderer.chunksize` (ttyfe.py:364-372)

Counts the screen lines of a chunk by running `doline` over its texts,
threading the `remaining` bookkeeping between texts. -/

def chunksizeInner (tags : List String) :
    List (String × Int) → Int × Option Int → Int × Option Int
  | [], st => st
  | lr :: rest, (lines, _) =>
    let lines' := if lr.2 < 1 || "right" ∈ tags then lines + 1 else lines
    chunksizeInner tags rest (max lines' 1, some lr.2)

def chunksizeAux (width : Int) : Chunk → Int × Option Int →
    Except String (Int × Option Int)
  | [], st => .ok st
  | (tags, text) :: rest, (lines, remaining) => do
    let res ← doline text width remaining tags
    chunksizeAux width rest (chunksizeInner tags res (lines, remaining))

def chunksizeM (width : Int) (chunk : Chunk) : Except String Int := do
  let (lines, _) ← chunksizeAux width chunk (0, none)
  pure lines

/-! ### `Location.shift` (ttyfe.py:618-649)

`shift(delta)` over the content model.  A location is an
`(anchor, offset)` pair.  The two loops of the source (forward and
backward) carry the last visited `cursor`/`lines` exactly as the Python
`for` loop leaves them bound when it exhausts without `break`ing. -/

def shiftFwdLoop (width : Int) :
    List (Nat × Chunk) → Nat → Int → Int → Except String (Nat × Int)
  | [], cursor, lines, delta => .ok (cursor, min (lines + delta) lines)
  | (c, ch) :: rest, _, _, delta => do
    let lines ← chunksizeM width ch
    if delta < lines then .ok (c, min (lines + delta) lines)
    else shiftFwdLoop width rest c lines (delta - lines)

def shiftBwdLoop (width : Int) :
    List (Nat × Chunk) → Nat → Int → Int → Except String (Nat × Int)
  | [], cursor, lines, delta => .ok (cursor, max 0 (lines + delta))
  | (c, ch) :: rest, _, _, delta => do
    let lines ← chunksizeM width ch
    if -delta ≤ lines then .ok (c, max 0 (lines + delta))
    else shiftBwdLoop width rest c lines (delta + lines)

def shiftM (width : Int) (content : List Chunk) (anchor : Nat) (offset : Int)
    (delta : Int) : Except String (Nat × Int) :=
  if delta = 0 then .ok (anchor, offset)
  else if delta ≤ 0 && -delta < offset then .ok (anchor, offset + delta)
  else
    let fwd := delta > 0
    match viewFrom content anchor fwd with
    | [] => .error "StopIteration"
    | (c0, ch0) :: restView => do
      let lines0 ← chunksizeM width ch0
      if fwd then
        if offset + delta < lines0 then pure (anchor, offset + delta)
        else shiftFwdLoop width restView c0 lines0 (delta - (lines0 - offset))
      else
        shiftBwdLoop width restView c0 lines0 (delta + offset - 1)

/-! ### `TTYRenderer.reframe` (ttyfe.py:325-362)

Renderer state for reframing: the height and width of the owned region, the
`head`/`sill` locations, the cursor of the window, and the content model.
`reframe` either continues from `sill` (pagedown) or walks the view
backward from the cursor, dropping the visible-tagged
portion of the first chunk (`itertools.takewhile`), until the
screen-line budget is exhausted. -/

structure RFState where
  height : Int
  width : Int
  headAnchor : Nat
  headOffset : Int
  sillAnchor : Nat
  sillOffset : Int
  cursor : Nat
  content : List Chunk
deriving Repr, DecidableEq

def takeWhileNotVisible (chunk : Chunk) : Chunk :=
  chunk.takeWhile fun p => !("visible" ∈ p.1)

def reframeLoop (s : RFState) :
    List (Nat × Chunk) → Int → Nat → Except String RFState
  | [], sl, mark => .ok { s with headAnchor := mark, headOffset := max 0 (-sl - 1) }
  | (m, ch) :: rest, sl, _ => do
    let chunklines ← chunksizeM s.width (takeWhileNotVisible ch)
    let sl' := sl - chunklines
    if sl' ≤ 0 then .ok { s with headAnchor := m, headOffset := max 0 (-sl' - 1) }
    else reframeLoop s rest sl' m

def reframeWalk (s : RFState) (screenlines : Int) : Except String RFState :=
  match viewFrom s.content s.cursor false with
  | [] => .error "StopIteration"
  | items => reframeLoop s items screenlines 0

def reframe (s : RFState) (target : Option Int) (action : Option String) :
    Except String RFState :=
  if action = some "pagedown" then
    .ok { s with headAnchor := s.sillAnchor, headOffset := s.sillOffset }
  else
    let screenlines : Int :=
      if action = some "pageup" then s.height - 2 - s.headOffset
      else
        match target with
        | none => Int.fdiv s.height 2
        | some t => if t ≥ 0 then min (s.height - 1) t else max (s.height + t) 0
    reframeWalk s screenlines

/-! ### Window stack: `TTYFrontend` (ttyfe.py:390-607)

A renderer is reduced to its region `(y, h)` plus the identity of the
window it shows (`wid`, a `Nat`; distinct windows get distinct ids);
`TTYFrontend` state is the terminal height (`maxy`), the renderer list,
the focused index and the popup stack of `(window-id, height)` pairs.

Each operation returns the post state together with an optional uncaught
Python exception.  Mutations performed before a raise are kept — e.g.
`popdown_window` pops `self.popstack` and `self.windows` before its
`self.windows[-1]` read can raise `IndexError` — matching the in-place
mutation order of the source. -/

structure WRect where
  y : Int
  h : Int
  wid : Nat
deriving Repr, DecidableEq

structure FE where
  maxy : Int
  windows : List WRect
  active : Int
  popstack : List (Nat × Int)
deriving Repr, DecidableEq

/-- Model of `TTYFrontend.initial`: one renderer covering the whole terminal. -/
def feInitial (maxy : Int) : FE :=
  { maxy := maxy, windows := [⟨0, maxy, 0⟩], active := 0, popstack := [] }

def sumHeights (ws : List WRect) : Int :=
  (ws.map (·.h)).sum

/-- Model of `TTYFrontend.split_window` (ttyfe.py:521-532). -/
def splitWindowOp (fe : FE) (newWid : Nat) : FE × Option String :=
  match fe.windows.get? fe.active.toNat with
  | none => (fe, some "IndexError")
  | some r =>
    let nh := Int.fdiv r.h 2
    if nh = 0 then (fe, some "Exception: too small to split")
    else
      let ws := fe.windows.take fe.active.toNat
        ++ [⟨r.y, nh, r.wid⟩, ⟨r.y + nh, r.h - nh, newWid⟩]
        ++ fe.windows.drop (fe.active.toNat + 1)
      ({ fe with windows := ws }, none)

/-- Model of `TTYFrontend.delete_window` (ttyfe.py:534-553).  The teardown
callback (`victim.window.destroy()`) is modelled as a no-op. -/
def deleteWindowOp (fe : FE) (n : Nat) : FE × Option String :=
  if fe.windows.length = 1 then (fe, some "Exception: attempt to delete only window")
  else
    match fe.windows.get? n with
    | none => (fe, some "IndexError")
    | some victim =>
      let ws1 := fe.windows.take n ++ fe.windows.drop (n + 1)
      let pop1 :=
        match fe.popstack.getLast? with
        | some (w, _) => if w = victim.wid then fe.popstack.dropLast else fe.popstack
        | none => fe.popstack
      if n = 0 then
        match ws1 with
        | [] => ({ fe with windows := ws1, popstack := pop1 }, some "IndexError")
        | u :: rest =>
          ({ fe with windows := ⟨0, victim.h + u.h, u.wid⟩ :: rest, popstack := pop1 },
            none)
      else
        match ws1.get? (n - 1) with
        | none => ({ fe with windows := ws1, popstack := pop1 }, some "IndexError")
        | some u =>
          let ws2 := ws1.take (n - 1) ++ [⟨u.y, victim.h + u.h, u.wid⟩] ++ ws1.drop n
          let fe' := { fe with windows := ws2, popstack := pop1 }
          if fe.active = n then ({ fe' with active := fe.active - 1 }, none)
          else (fe', none)

/-- Shared tail of `TTYFrontend.popup_window`: in-place replacement when
the bottom window is the top of the popup stack, otherwise shrink the
bottom window and append the overlay; then push `(new, height)`. -/
def popupCore (fe : FE) (r : WRect) (newWid : Nat) (height : Int) (select : Bool) :
    FE × Option String :=
  let fe2 : FE :=
    match fe.popstack.getLast? with
    | some (pw, _) =>
      if r.wid = pw then
        { fe with popstack := fe.popstack.dropLast ++ [(r.wid, r.h)],
                  windows := fe.windows.dropLast ++ [⟨r.y, r.h, newWid⟩] }
      else
        { fe with windows := fe.windows.dropLast
            ++ [⟨r.y, r.h - height, r.wid⟩, ⟨r.y + r.h - height, height, newWid⟩] }
    | none =>
      { fe with windows := fe.windows.dropLast
          ++ [⟨r.y, r.h - height, r.wid⟩, ⟨r.y + r.h - height, height, newWid⟩] }
  let fe3 := { fe2 with popstack := fe2.popstack ++ [(newWid, height)] }
  if select then ({ fe3 with active := fe3.windows.length - 1 }, none)
  else (fe3, none)

/-- Model of `TTYFrontend.popup_window` (ttyfe.py:558-580).  Note the guard
`r.height <= height and r.window != self.popstack[-1][0]` reads
`popstack[-1]` before any mutation: with an empty popstack and a small
bottom window it raises `IndexError`, leaving the state unchanged. -/
def popupWindowOp (fe : FE) (newWid : Nat) (height : Int) (select : Bool) :
    FE × Option String :=
  match fe.windows.getLast? with
  | none => (fe, some "IndexError")
  | some r =>
    if r.h ≤ height then
      match fe.popstack.getLast? with
      | none => (fe, some "IndexError")
      | some (pw, _) =>
        let fe1 :=
          if r.wid ≠ pw then { fe with popstack := fe.popstack ++ [(r.wid, r.h)] }
          else fe
        popupCore fe1 r newWid height select
    else popupCore fe r newWid height select

/-- Model of `TTYFrontend.popdown_window` (ttyfe.py:582-603).  `popstack.pop()`
and `windows.pop()` happen before `adj = self.windows[-1]`, so when the
popup stack is non-empty while a single renderer remains, the state is
left with `windows == []` when the `IndexError` fires. -/
def popdownWindowOp (fe : FE) : FE × Option String :=
  match fe.popstack.getLast? with
  | none => (fe, some "IndexError")
  | some _ =>
    let pop1 := fe.popstack.dropLast
    match fe.windows.getLast? with
    | none => ({ fe with popstack := pop1 }, some "IndexError")
    | some victim =>
      let ws1 := fe.windows.dropLast
      match ws1.getLast? with
      | none => ({ fe with popstack := pop1, windows := ws1 }, some "IndexError")
      | some adj =>
        let fe' : FE :=
          match pop1.getLast? with
          | some (nwid, nheight) =>
            let dh := nheight - victim.h
            { fe with popstack := pop1,
                      windows := ws1.dropLast
                        ++ [(⟨adj.y, adj.h - dh, adj.wid⟩ : WRect),
                            (⟨victim.y - dh, nheight, nwid⟩ : WRect)] }
          | none =>
            { fe with popstack := pop1,
                      windows := ws1.dropLast
                        ++ [(⟨adj.y, adj.h + victim.h, adj.wid⟩ : WRect)] }
        if fe'.active ≥ fe'.windows.length then
          ({ fe' with active := fe'.windows.length - 1 }, none)
        else (fe', none)

/-- Model of `TTYFrontend.doresize` (ttyfe.py:453-482).  The source computes each
rescaled height as `max(1, int(victim.height * (self.maxy / oldy)))`
through binary floating point; `Int.tdiv` reproduces the truncation
(`int()` rounds toward zero), up to float rounding at exact-quotient
boundaries, which no theorem below exercises.  The popstack cleanup loop
(`self.popstack.remove(victim)`) removes renderer objects from a list of
`(window, height)` tuples, so it always raises the suppressed
`ValueError` and the popstack is in fact left unchanged. -/
def doresizeOp (fe : FE) (newMaxy : Int) : FE × Option String :=
  let oldy := fe.maxy
  let fe0 := { fe with maxy := newMaxy }
  let fe1 :=
    if newMaxy < fe0.windows.length then
      { fe0 with active := fe0.active - (fe0.windows.length - newMaxy),
                 windows := fe0.windows.drop (fe0.windows.length - newMaxy.toNat) }
    else fe0
  match fe1.windows with
  | [] => (fe1, none)
  | w0 :: restW =>
    let step := fun (acc : Int × List WRect) (v : WRect) =>
      let nh := max 1 (Int.tdiv (v.h * newMaxy) oldy)
      (acc.1 - nh, (⟨acc.1 - nh, nh, v.wid⟩ : WRect) :: acc.2)
    let (remaining, neww) := restW.reverse.foldl step (newMaxy, [])
    ({ fe1 with windows := ⟨0, remaining, w0.wid⟩ :: neww }, none)

/-! ### Key values and name tables (context.py:326-355, ttyfe.py:380-387)

A normalized key is either a character or a `curses` key code (the
integers stored in `ttyfe.key`).  The `unicodedata.lookup` /
`unicodedata.name` tables are external; they are modelled by small
explicit tables covering every name/character used in the theorems
below (the real tables are strict supersets; every `none`/error answer
below is also a miss/raise of the real tables for the inputs used). -/

/-- ASCII case mapping on whole strings (`str.lower()`/`str.upper()`;
every modifier and key name reaching these in a theorem below is
ASCII). -/
def strLower (s : String) : String := String.mk (s.data.map Char.toLower)

def strUpper (s : String) : String := String.mk (s.data.map Char.toUpper)

inductive KeyV where
  | ch (c : Char)
  | code (n : Nat)
deriving Repr, DecidableEq

/-- Table `Keymap.other_keys` (name, lowercased → character). -/
def otherKeysGet (n : String) : Option Char :=
  if n = "escape" || n = "esc" then some '\x1b'
  else if n = "delete" || n = "del" then some '\x7f'
  else if n = "line feed" || n = "linefeed" || n = "newline" then some '\x0a'
  else if n = "carriage return" || n = "return" then some '\x0d'
  else if n = "tab" then some '\x09'
  else none

/-- Table `Keymap.unother_keys` (character → primary name). -/
def unotherKeys (c : Char) : Option String :=
  if c = '\x1b' then some "escape"
  else if c = '\x7f' then some "delete"
  else if c = '\x0a' then some "line feed"
  else if c = '\x0d' then some "carriage return"
  else if c = '\x09' then some "tab"
  else none

/-- Fragment of the `unicodedata.lookup` table (uppercased name → character). -/
def unicodedataLookup (n : String) : Option Char :=
  if n = "LATIN SMALL LETTER A" then some 'a'
  else if n = "LATIN SMALL LETTER B" then some 'b'
  else if n = "LATIN CAPITAL LETTER A" then some 'A'
  else if n = "LATIN CAPITAL LETTER X" then some 'X'
  else none

/-- Fragment of `unicodedata.name`; a multi-character argument raises
`TypeError` before any table access, an unnamed character `ValueError`. -/
def unicodedataName (s : String) : Except String String :=
  match s.data with
  | [c] =>
    if c = 'a' then .ok "LATIN SMALL LETTER A"
    else if c = 'A' then .ok "LATIN CAPITAL LETTER A"
    else if c = 'X' then .ok "LATIN CAPITAL LETTER X"
    else if c = 'C' then .ok "LATIN CAPITAL LETTER C"
    else .error "ValueError: no such name"
  | _ => .error "TypeError: name() argument 1 must be a unicode character"

/-- Fragment of the `curses` key-name table `ttyfe.key`. -/
def ttyfeKeyGet (n : String) : Option Nat :=
  if n = "F1" then some 265
  else if n = "F2" then some 266
  else if n = "UP" then some 259
  else if n = "DOWN" then some 258
  else none

/-! ### The sequence-spec grammar: `Keymap.keyseq_re` (context.py:333-339)

`^((control|shift|meta|hyper|super|ctl|alt)-)*((.)|\[([^]]+)\])(|\s+\S.*)$`
with `re.IGNORECASE`.  At any position at most one modifier name can
match (no name is a prefix of another up to the joining hyphen), so the
backtracking of the regex reduces to: try the longest run of modifiers first
and back off one modifier at a time until the key-and-rest tail parses.
The `$`-before-a-final-newline subtlety of the Python `re` module is not
modelled; no string below contains a newline. -/

inductive KeyPart where
  | char (c : Char)
  | name (n : String)
deriving Repr, DecidableEq

def allModifiers : List String :=
  ["control", "shift", "meta", "hyper", "super", "ctl", "alt"]

/-- Match one `modifier-` prefix case-insensitively, returning the
matched text (original case) and the remainder. -/
def matchModifier (s : List Char) : Option (String × List Char) :=
  allModifiers.findSome? fun m =>
    let n := m.length
    let pre := s.take n
    if (pre.map Char.toLower) = m.data && s.get? n = some '-' then
      some (String.mk pre, s.drop (n + 1))
    else none

/-- Tail group `(|(\s+(?P<rest>\S.*)))$`: end of string, or whitespace then a
non-space remainder (newline-free, see above). -/
def parseTail (t : List Char) : Option (Option String) :=
  match t with
  | [] => some none
  | _ =>
    let ws := t.takeWhile isPyWS
    let r := t.dropWhile isPyWS
    if ws = [] then none
    else
      match r with
      | [] => none
      | _ => if '\n' ∈ r then none else some (some (String.mk r))

/-- Key group `((?P<char>.)|\[(?P<name>[^]]+)\])` followed by the tail; the
single-character alternative is tried first, as in the regex. -/
def parseKeyRest (s : List Char) : Option (KeyPart × Option String) :=
  let charBranch : Option (KeyPart × Option String) :=
    match s with
    | [] => none
    | c :: t => if c = '\n' then none else (parseTail t).map (fun r => (.char c, r))
  match charBranch with
  | some v => some v
  | none =>
    match s with
    | '[' :: t =>
      let nm := t.takeWhile (· ≠ ']')
      match nm, t.dropWhile (· ≠ ']') with
      | _ :: _, ']' :: t' => (parseTail t').map (fun r => (.name (String.mk nm), r))
      | _, _ => none
    | _ => none

/-- Greedy modifier run with back-off (see `keyseq_re` note above).
Fuel is bounded by the string length; each modifier consumes at least
four characters, so `length + 1` fuel never runs out. -/
def parseFrom : Nat → List Char → Option (List String × KeyPart × Option String)
  | 0, _ => none
  | fuel + 1, s =>
    match matchModifier s with
    | some (m, s') =>
      match parseFrom fuel s' with
      | some (ms, kp, r) => some (m :: ms, kp, r)
      | none => (parseKeyRest s).map (fun (kp, r) => ([], kp, r))
    | none => (parseKeyRest s).map (fun (kp, r) => ([], kp, r))

def parseKeySeq (s : String) : Option (List String × KeyPart × Option String) :=
  parseFrom (s.data.length + 1) s.data

/-! ### `Keymap.split` (context.py:357-440)

The modifier set is normalized via `modifier_aliases.get(mod, mod)
.lower()` — note the alias lookup happens before lowercasing, exactly
as in the source (so e.g. `Ctl` does not alias to `control`).  Hyper and
super, then control, then shift, then meta are applied in source order;
`None, None` means "valid but untypable".  In the meta branch whose key
has no bracket name and is not a control character, the source passes
the literal three-character string "key" (sic) to `unicodedata.name`,
which raises `TypeError`. -/

def normalizeMod (m : String) : String :=
  strLower (if m = "ctl" then "control" else if m = "alt" then "meta" else m)

def dedup (l : List String) : List String :=
  l.foldl (fun acc m => if m ∈ acc then acc else acc ++ [m]) []

def applyControl (modifiers : List String) (key : KeyV) :
    Option (KeyV × List String) :=
  if "control" ∈ modifiers then
    match key with
    | .code _ => none  -- ignoring control+function keys: untypable
    | .ch c =>
      if c = '?' then some (.ch '\x7f', modifiers.erase "control")
      else if 0x40 ≤ c.toUpper.val && c.toUpper.val ≤ 0x5f then
        some (.ch (Char.ofNat (c.toUpper.val.toNat - 0x40)), modifiers.erase "control")
      else none
  else some (key, modifiers)

def applyShift (modifiers : List String) (key : KeyV) :
    Option (KeyV × List String) :=
  if "shift" ∈ modifiers then
    match key with
    | .code _ => none  -- ignoring shift+function keys: untypable
    | .ch c => some (.ch c.toUpper, modifiers.erase "shift")
  else some (key, modifiers)

def applyMeta (modifiers : List String) (key : KeyV) (rest : Option String) :
    Except String (KeyV × Option String × List String) :=
  if "meta" ∈ modifiers then
    match key with
    | .code _ => .error "TypeError: ord() expected a character"
    | .ch c => do
      let name ←
        match unotherKeys c with
        | some nm => pure ("[" ++ strUpper nm ++ "]")
        | none =>
          if c.val < 0x20 then do
            let nm ← unicodedataName (String.mk [Char.ofNat (c.val.toNat + 0x40)])
            pure ("Control-[" ++ nm ++ "]")
          else do
            -- source bug: the literal string "key" is passed, not the key
            let nm ← unicodedataName "key"
            pure ("[" ++ nm ++ "]")
      let rest' :=
        match rest with
        | some r => name ++ " " ++ r
        | none => name
      pure (.ch '\x1b', some rest', modifiers.erase "meta")
  else pure (key, rest, modifiers)

def splitResolve (mods : List String) (kp : KeyPart) (rest : Option String) :
    Except String (Option KeyV × Option String) := do
  let modifiers := dedup (mods.map normalizeMod)
  let key : KeyV ←
    match kp with
    | .char c => pure (KeyV.ch c)
    | .name n =>
      match unicodedataLookup (strUpper n) with
      | some c => pure (KeyV.ch c)
      | none =>
        match otherKeysGet (strLower n) with
        | some c => pure (KeyV.ch c)
        | none =>
          match ttyfeKeyGet (strUpper n) with
          | some k => pure (KeyV.code k)
          | none => .error ("TypeError: unknown name: " ++ n)
  if "hyper" ∈ modifiers || "super" ∈ modifiers then pure (none, none)
  else
    match applyControl modifiers key with
    | none => pure (none, none)
    | some (key, modifiers) =>
      match applyShift modifiers key with
      | none => pure (none, none)
      | some (key, modifiers) => do
        let (key, rest, modifiers) ← applyMeta modifiers key rest
        if modifiers ≠ [] then .error "AssertionError"
        else pure (some key, rest)

def splitM (spec : String) : Except String (Option KeyV × Option String) :=
  match spec.data with
  | [c] => .ok (some (.ch c), none)
  | _ =>
    match parseKeySeq spec with
    | none => .error ("TypeError: Invalid Key Sequence Specification " ++ spec)
    | some (mods, kp, rest) => splitResolve mods kp rest

/-! ### The Keymap store (context.py:260-324)

A `Keymap` is a dict from normalized keys to values that are either
bound actions (opaque here: `Nat` identifiers) or nested sub-keymaps;
it is modelled as an association list.  The sequence-spec operations
`__setitem__`/`__getitem__`/`__delitem__` recurse through sub-maps via
the remainder string, so they take a fuel argument (the recursion
consumes the tokens of the spec; every theorem below supplies ample fuel and
none of its inputs can exhaust it).  Because the source mutates
sub-maps in place, set/delete return the post state together with the
optional exception, keeping mutations made before a raise — e.g.
`__setitem__` stores a fresh empty sub-map before recursing into it.

The dict keys of the model are `KeyV` values; the dict of the source could also
hold raw non-string keys (the not-hasattr branches),
which no sequence-spec operation can create — in particular `None` is
never a key, so `super().__getitem__(None)` (the untypable-spec path of
`__getitem__`, reached before the dead `if key is None` check) always
raises `KeyError`. -/

inductive KmEntry where
  | act (a : Nat)
  | sub (m : List (KeyV × KmEntry))

abbrev KmAList := List (KeyV × KmEntry)

def alGet : KmAList → KeyV → Option KmEntry
  | [], _ => none
  | (k', v') :: rest, k => if k' = k then some v' else alGet rest k

def alSet : KmAList → KeyV → KmEntry → KmAList
  | [], k, v => [(k, v)]
  | (k', v') :: rest, k, v =>
    if k' = k then (k, v) :: rest else (k', v') :: alSet rest k v

def alDel : KmAList → KeyV → KmAList
  | [], _ => []
  | (k', v') :: rest, k => if k' = k then rest else (k', v') :: alDel rest k

/-- Model of `Keymap.__setitem__` (context.py:292-311) on a sequence-spec key. -/
def kmSetS : Nat → KmAList → String → KmEntry → KmAList × Option String
  | 0, m, _, _ => (m, some "RecursionError")
  | fuel + 1, m, spec, v =>
    match splitM spec with
    | .error e => (m, some e)
    | .ok (none, _) => (m, none)                 -- untypable: silent no-op
    | .ok (some k, none) => (alSet m k v, none)
    | .ok (some k, some rest) =>
      match alGet m k with
      | some (.act _) => (m, some ("KeyError: is not a keymap"))
      | some (.sub sm) =>
        let r := kmSetS fuel sm rest v
        (alSet m k (.sub r.1), r.2)
      | none =>
        -- a fresh empty sub-keymap is stored, then mutated in place
        let r := kmSetS fuel [] rest v
        (alSet m k (.sub r.1), r.2)

/-- Model of `Keymap.__getitem__` (context.py:280-290) on a sequence-spec key. -/
def kmGetS : Nat → KmAList → String → Except String KmEntry
  | 0, _, _ => .error "RecursionError"
  | fuel + 1, m, spec =>
    match splitM spec with
    | .error e => .error e
    | .ok (none, _) => .error "KeyError"         -- dict lookup of None
    | .ok (some k, rest) =>
      match alGet m k with
      | none => .error "KeyError"
      | some v =>
        match rest with
        | none => .ok v
        | some r =>
          match v with
          | .sub sm => kmGetS fuel sm r
          | .act _ => .error "TypeError: not subscriptable"

/-- Model of `Keymap.__delitem__` (context.py:313-324) on a sequence-spec key. -/
def kmDelS : Nat → KmAList → String → KmAList × Option String
  | 0, m, _ => (m, some "RecursionError")
  | fuel + 1, m, spec =>
    match splitM spec with
    | .error e => (m, some e)
    | .ok (none, _) => (m, some "KeyError")      -- dict del/lookup of None
    | .ok (some k, none) =>
      match alGet m k with
      | none => (m, some "KeyError")
      | some _ => (alDel m k, none)
    | .ok (some k, some r) =>
      match alGet m k with
      | none => (m, some "KeyError")
      | some (.act _) => (m, some ("KeyError: is not a keymap"))
      | some (.sub sm) =>
        let res := kmDelS fuel sm r
        (alSet m k (.sub res.1), res.2)

/-! ### `Window.input_char` (context.py:73-98)

Dispatcher state: the root keymap of the window and `active_keymap`.  The
`active_keymap` of the source can be a keymap or — after a missed lookup —
`None` (`v = None; if not callable(v): self.active_keymap = v`); it is
an `Option` here.  A keystroke is a character (the `get_wch` string
case); its lookup in the active keymap takes the single-character fast
path of `Keymap.split`, i.e. a raw dict lookup.  When `active_keymap`
is `None`, `self.active_keymap[k]` raises `TypeError`, which the outer
`except Exception` converts into a whine plus a reset to the root
keymap.  Result: (new state, number of whines, invoked action). -/

structure WState where
  root : KmAList
  active : Option KmAList

def inputChar (s : WState) (k : Char) : WState × Nat × Option Nat :=
  match s.active with
  | none =>
    -- None[k] → TypeError → except Exception: whine; reset to root
    ({ s with active := some s.root }, 1, none)
  | some km =>
    match alGet km (.ch k) with
    | none =>
      -- KeyError → v = None → not callable → active_keymap = None; no whine
      ({ s with active := none }, 0, none)
    | some (.sub m) => ({ s with active := some m }, 0, none)
    | some (.act a) => ({ s with active := some s.root }, 0, some a)

/-! ### Concrete instances used by the theorems below -/

/-- A text has a word when some character is not Python whitespace
(`textwrap.wrap` then returns a nonempty line list for positive widths). -/
def hasWord (s : String) : Prop :=
  ∃ c ∈ s.data, isPyWS c = false

/-- The operation sequence behind the window-stack counterexample:
start at height 24, pop up a one-row prompt window, delete the shrunk
main window from under it, then pop the prompt back down. -/
def c1State : FE × Option String :=
  popdownWindowOp (deleteWindowOp (popupWindowOp (feInitial 24) 1 1 true).1 0).1

/-- Three content items, each rendering to two screen lines. -/
def c4Content : List Chunk :=
  List.replicate 3 [(([] : List String), "a\nb\n")]

/-- A small renderer state for the reframe witness. -/
def rfS0 : RFState :=
  { height := 10, width := 20, headAnchor := 0, headOffset := 1,
    sillAnchor := 1, sillOffset := 2, cursor := 1,
    content := [[(["visible"], "x\n")], [([], "y\n")]] }

/-- A keymap holding one bound action at the bare key `c`. -/
def km0 : KmAList := [(.ch 'c', .act 7)]

/-- A window dispatcher state whose root keymap binds only `x`. -/
def wst0 : WState :=
  { root := [(.ch 'x', .act 0)], active := some [(.ch 'x', .act 0)] }

/-! ## Helper lemmas -/

theorem alGet_alSet_same (m : KmAList) (k : KeyV) (v : KmEntry) :
    alGet (alSet m k v) k = some v := by
  induction m with
  | nil => simp [alSet, alGet]
  | cons p rest ih =>
    obtain ⟨k', v'⟩ := p
    by_cases h : k' = k
    · simp [alSet, alGet, h]
    · simp [alSet, alGet, h, ih]

theorem alGet_alSet_ne (m : KmAList) (k k' : KeyV) (v : KmEntry) (h : k' ≠ k) :
    alGet (alSet m k v) k' = alGet m k' := by
  induction m with
  | nil =>
    simp only [alSet, alGet]
    rw [if_neg (Ne.symm h)]
  | cons p rest ih =>
    obtain ⟨k0, v0⟩ := p
    by_cases h0 : k0 = k
    · subst h0
      simp only [alSet, if_pos rfl, alGet]
      rw [if_neg (Ne.symm h), if_neg (Ne.symm h)]
    · simp only [alSet, if_neg h0, alGet]
      by_cases h1 : k0 = k'
      · rw [if_pos h1, if_pos h1]
      · rw [if_neg h1, if_neg h1, ih]

theorem alSet_alSet_same (m : KmAList) (k : KeyV) (v w : KmEntry) :
    alSet (alSet m k v) k w = alSet m k w := by
  induction m with
  | nil => simp [alSet]
  | cons p rest ih =>
    obtain ⟨k0, v0⟩ := p
    by_cases h0 : k0 = k
    · simp [alSet, h0]
    · simp [alSet, h0, ih]

theorem wordsAux_ne_nil_of_cur (l : List Char) (cur : List Char) (h : cur ≠ []) :
    wordsAux l cur ≠ [] := by
  induction l generalizing cur with
  | nil => simp [wordsAux, h]
  | cons c cs ih =>
    simp only [wordsAux]
    by_cases hws : isPyWS c
    · simp [hws, h]
    · exact fun hh => ih (c :: cur) (by simp) (by simpa [hws] using hh)

theorem wordsAux_ne_nil (l : List Char) (cur : List Char)
    (h : ∃ c ∈ l, isPyWS c = false) : wordsAux l cur ≠ [] := by
  induction l generalizing cur with
  | nil => simp at h
  | cons c cs ih =>
    simp only [wordsAux]
    by_cases hws : isPyWS c
    · have h' : ∃ d ∈ cs, isPyWS d = false := by
        rcases h with ⟨d, hd, hdf⟩
        rcases List.mem_cons.mp hd with hd2 | hd2
        · subst hd2; simp [hws] at hdf
        · exact ⟨d, hd2, hdf⟩
      by_cases hc : cur = []
      · simpa [hws, hc] using ih [] h'
      · simp [hws, hc, ih [] h']
    · simp only [hws, if_neg (by simp [hws] : ¬(isPyWS c = true))]
      exact wordsAux_ne_nil_of_cur cs (c :: cur) (by simp)

theorem wordsAux_mem_ne_nil (l : List Char) (cur w : List Char)
    (hw : w ∈ wordsAux l cur) : w ≠ [] := by
  induction l generalizing cur with
  | nil =>
    by_cases hc : cur = [] <;> simp [wordsAux, hc] at hw
    subst hw
    simpa using hc
  | cons c cs ih =>
    simp only [wordsAux] at hw
    by_cases hws : isPyWS c
    · by_cases hc : cur = []
      · exact ih [] (by simpa [hws, hc] using hw)
      · rcases (by simpa [hws, hc] using hw : w = cur.reverse ∨ w ∈ wordsAux cs []) with
          h | h
        · subst h; simpa using hc
        · exact ih [] h
    · exact ih (c :: cur) (by simpa [hws] using hw)

theorem chopWord_cons_head (w : Nat) (l : List Char) (h : l ≠ []) :
    ∃ p ps, chopWord w l = p :: ps ∧ p ≠ [] := by
  rcases l with _ | ⟨c, cs⟩
  · simp at h
  · by_cases hw : w = 0
    · exact ⟨c :: cs, [], by simp [chopWord, hw], by simp⟩
    · by_cases hlen : cs.length + 1 ≤ w
      · exact ⟨c :: cs, [], by simp [chopWord, hw, hlen], by simp⟩
      · refine ⟨(c :: cs).take w, chopWord w ((c :: cs).drop w),
          by simp [chopWord, hw, hlen], ?_⟩
        have hpos : 0 < w := Nat.pos_of_ne_zero hw
        simp only [ne_eq, List.take_eq_nil_iff]
        simp
        omega

theorem packAux_ne_nil (w : Nat) (ps : List (List Char)) (cur : List Char)
    (h : cur ≠ []) : packAux w ps cur ≠ [] := by
  induction ps generalizing cur with
  | nil => simp [packAux, h]
  | cons p ps ih =>
    simp only [packAux]
    by_cases hc : cur = []
    · exact absurd hc h
    · by_cases hfit : cur.length + 1 + p.length ≤ w
      · simp only [if_neg hc, if_pos hfit]
        exact ih (cur ++ ' ' :: p) (by simp)
      · simp [hc, hfit]

theorem textwrapWrap_pos_ne_nil (s : String) (k : Int) (hk : 1 ≤ k)
    (hword : hasWord s) : ∃ l0 ls, textwrapWrap s (some k) = .ok (l0 :: ls) := by
  have hk0 : ¬k ≤ 0 := by omega
  obtain ⟨w0, ws, hw0⟩ : ∃ w0 ws, wordsOf s.data = w0 :: ws := by
    rcases hwne : wordsOf s.data with _ | ⟨w0, ws⟩
    · exact absurd hwne (wordsAux_ne_nil s.data [] hword)
    · exact ⟨w0, ws, rfl⟩
  have hw0ne : w0 ≠ [] :=
    wordsAux_mem_ne_nil s.data [] w0 (by rw [← wordsOf, hw0]; simp)
  obtain ⟨p, ps, hchop, hpne⟩ := chopWord_cons_head k.toNat w0 hw0ne
  have hpieces : (wordsOf s.data).flatMap (chopWord k.toNat)
      = p :: (ps ++ ws.flatMap (chopWord k.toNat)) := by
    rw [hw0]
    simp [hchop]
  have hpack : packAux k.toNat (p :: (ps ++ ws.flatMap (chopWord k.toNat))) [] ≠ [] := by
    simp only [packAux, if_pos rfl]
    exact packAux_ne_nil k.toNat _ p hpne
  rcases hres : packAux k.toNat ((wordsOf s.data).flatMap (chopWord k.toNat)) []
    with _ | ⟨l0, ls⟩
  · rw [hpieces] at hres
    exact absurd hres hpack
  · refine ⟨String.mk l0, ls.map fun l => String.mk l, ?_⟩
    simp only [textwrapWrap]
    rw [if_neg hk0, hres]
    simp

theorem textwrapWrap_pos_ok (s : String) (w : Int) (hw : 0 < w) :
    ∃ ll, textwrapWrap s (some w) = .ok ll := by
  simp only [textwrapWrap]
  rw [if_neg (by omega : ¬w ≤ 0)]
  exact ⟨_, rfl⟩

theorem dolineLoop_total (right : Bool) (width : Int) (remaining : Option Int)
    (hrem : right = true → ∃ r, remaining = some r) :
    ∀ (cs : List Char) (out : String) (line cl : Int),
      ∃ l, dolineLoop right width remaining cs out line (some cl) = .ok l := by
  intro cs
  induction cs with
  | nil =>
    intro out line cl
    unfold dolineLoop
    by_cases h : out = "" <;> simp [h]
  | cons c cs ih =>
    intro out line cl
    by_cases hnl : c = '\n'
    · obtain ⟨l, hl⟩ := ih "" (line + 1) 0
      simp [dolineLoop, hnl, hl, Except.map]
    · by_cases htab : c = '\t'
      · subst htab
        by_cases hov : cl + ((strWidth (String.mk
            (List.replicate (8 - Int.emod cl 8).toNat ' '))) : Int) > width
        · by_cases hlen : 1 < (8 - Int.emod cl 8).toNat
          · by_cases hrt : right = true
            · subst hrt
              by_cases hline : line = 0
              · subst hline
                obtain ⟨r, hr⟩ := hrem rfl
                subst hr
                obtain ⟨l, hl⟩ := ih out 1 r
                simp [dolineLoop, hov, hlen, hl, Except.map]
              · obtain ⟨l, hl⟩ := ih "" (line + 1) 0
                simp [dolineLoop, hov, hlen, hline, hl, Except.map]
            · have hrf : right = false := by simpa using hrt
              subst hrf
              obtain ⟨l, hl⟩ := ih "" (line + 1) 0
              simp [dolineLoop, hov, hlen, hl, Except.map]
          · by_cases hrt : right = true
            · subst hrt
              by_cases hline : line = 0
              · subst hline
                obtain ⟨r, hr⟩ := hrem rfl
                subst hr
                obtain ⟨l, hl⟩ := ih
                  (out ++ String.mk (List.replicate (8 - Int.emod cl 8).toNat ' ')) 1
                  (r + ((strWidth (String.mk
                    (List.replicate (8 - Int.emod cl 8).toNat ' '))) : Int))
                simp [dolineLoop, hov, hlen, hl, Except.map]
              · obtain ⟨l, hl⟩ := ih
                  (String.mk (List.replicate (8 - Int.emod cl 8).toNat ' ')) (line + 1)
                  ((strWidth (String.mk
                    (List.replicate (8 - Int.emod cl 8).toNat ' '))) : Int)
                simp [dolineLoop, hov, hlen, hline, hl, Except.map]
            · have hrf : right = false := by simpa using hrt
              subst hrf
              obtain ⟨l, hl⟩ := ih
                (String.mk (List.replicate (8 - Int.emod cl 8).toNat ' ')) (line + 1)
                ((strWidth (String.mk
                  (List.replicate (8 - Int.emod cl 8).toNat ' '))) : Int)
              simp [dolineLoop, hov, hlen, hl, Except.map]
        · obtain ⟨l, hl⟩ := ih
            (out ++ String.mk (List.replicate (8 - Int.emod cl 8).toNat ' ')) line
            (cl + ((strWidth (String.mk
              (List.replicate (8 - Int.emod cl 8).toNat ' '))) : Int))
          simp [dolineLoop, hov, hl]
      · by_cases hsp : ' ' ≤ c
        · by_cases hov : cl + ((strWidth (String.mk [c])) : Int) > width
          · by_cases hrt : right = true
            · subst hrt
              by_cases hline : line = 0
              · subst hline
                obtain ⟨r, hr⟩ := hrem rfl
                subst hr
                obtain ⟨l, hl⟩ := ih (out ++ String.mk [c]) 1
                  (r + ((strWidth (String.mk [c])) : Int))
                simp [dolineLoop, hnl, htab, hsp, hov, hl, Except.map]
              · obtain ⟨l, hl⟩ := ih (String.mk [c]) (line + 1)
                  ((strWidth (String.mk [c])) : Int)
                simp [dolineLoop, hnl, htab, hsp, hov, hline, hl, Except.map]
            · have hrf : right = false := by simpa using hrt
              subst hrf
              obtain ⟨l, hl⟩ := ih (String.mk [c]) (line + 1)
                ((strWidth (String.mk [c])) : Int)
              simp [dolineLoop, hnl, htab, hsp, hov, hl, Except.map]
          · obtain ⟨l, hl⟩ := ih (out ++ String.mk [c]) line
              (cl + ((strWidth (String.mk [c])) : Int))
            simp [dolineLoop, hnl, htab, hsp, hov, hl]
        · obtain ⟨l, hl⟩ := ih out line cl
          simp [dolineLoop, hnl, htab, hsp, hl]

/-! ## Claim theorems -/

/-- C5 counterexample: `TTYRenderer.doline` is not total on the domain the
claim declares.  With a "fill" tag it raises `TypeError` when `remaining`
is `None`, `ValueError` when `remaining` is `0`, and `IndexError` on a
whitespace-only text; with a "right" tag and `remaining = None` a
first-line overflow poisons the column counter and raises `TypeError`. -/
theorem doline_raises_in_declared_domain :
    doline "a b" 5 none ["fill"]
      = .error "TypeError: unorderable types NoneType and int"
    ∧ doline "a b" 5 (some 0) ["fill"] = .error "ValueError: invalid width"
    ∧ doline " " 5 (some 2) ["fill"] = .error "IndexError: list index out of range"
    ∧ doline "aaaaab" 5 none ["right"] = .error "TypeError: col is None" :=
  ⟨rfl, rfl, rfl, rfl⟩

/-- C5 (amended): for every text `s`, width `w > 0`, remaining value `r`
that is either None or an integer in `[0, w]`, and tag set — provided
that `r` is an integer whenever the tag set contains "right" or "fill",
and that additionally `r ≥ 1` and `s` contains a non-whitespace
character whenever the tag set contains "fill" — `TTYRenderer.doline`
terminates and returns a finite list of (line, remaining) pairs without
raising. -/
theorem doline_total (s : String) (w : Int) (r : Option Int) (tags : List String)
    (hw : 0 < w)
    (hr : r = none ∨ ∃ k, r = some k ∧ 0 ≤ k ∧ k ≤ w)
    (hfill : "fill" ∈ tags → ∃ k, r = some k ∧ 1 ≤ k ∧ hasWord s)
    (hright : "right" ∈ tags → ∃ k, r = some k) :
    ∃ l, doline s w r tags = .ok l := by
  by_cases hf : "fill" ∈ tags
  · obtain ⟨k, hk, hk1, hword⟩ := hfill hf
    subst hk
    obtain ⟨l0, ls, hwrap⟩ := textwrapWrap_pos_ne_nil s k hk1 hword
    obtain ⟨ll2, hwrap2⟩ := textwrapWrap_pos_ok (String.intercalate " " ls) w hw
    simp only [doline, hf, if_true, hwrap, hwrap2]
    exact dolineLoop_total _ w (some k) (fun _ => ⟨k, rfl⟩) _ "" 0 _
  · simp only [doline, hf, if_false]
    exact dolineLoop_total _ w r (fun hb => hright (of_decide_eq_true hb)) _ "" 0 _

/-- C5 witness: a concrete instance of the amended totality, once on the
plain path and once on the "fill" path. -/
theorem doline_total_witness :
    (∃ l, doline "hello world" 5 none [] = .ok l)
    ∧ (∃ l, doline "foo bar" 5 (some 3) ["fill"] = .ok l) :=
  ⟨doline_total "hello world" 5 none [] (by decide) (Or.inl rfl)
      (fun h => absurd h (by decide)) (fun h => absurd h (by decide)),
    doline_total "foo bar" 5 (some 3) ["fill"] (by decide)
      (Or.inr ⟨3, rfl, by decide, by decide⟩)
      (fun _ => ⟨3, rfl, by decide, ⟨'f', by decide, rfl⟩⟩)
      (fun h => absurd h (by decide))⟩

/-- C1: the window-stack height invariant does not survive every
operation sequence.  Starting from one viewport of height 24, the
sequence `popup_window(new, height=1)`, `delete_window(0)` (delete the
shrunk main window from under the popup), `popdown_window()` leaves
`TTYFrontend.windows` empty — `popdown_window` pops the popup stack and
the last renderer before its `self.windows[-1]` read raises
`IndexError` — so the heights sum to 0, not the terminal height 24. -/
theorem windowstack_popdown_breaks_height_invariant :
    c1State = ({ maxy := 24, windows := [], active := 1, popstack := [] }, some "IndexError")
    ∧ sumHeights c1State.1.windows ≠ c1State.1.maxy := by
  refine ⟨rfl, ?_⟩
  intro h
  simp [c1State, sumHeights, feInitial, popupWindowOp, popupCore, deleteWindowOp,
    popdownWindowOp] at h

/-- C2: `Window.input_char` on a keystroke with no entry in the active
keymap does not whine and does not reset `active_keymap` to the root
keymap; it silently sets `active_keymap` to `None` (the caught
`KeyError` leaves `v = None`, which is not callable and so is installed
as the active keymap).  Only the next keystroke — here the bound key
`x`, whose action is consequently swallowed — raises `TypeError` inside
the dispatcher and produces the whine and the reset. -/
theorem inputchar_unbound_key_no_whine :
    inputChar wst0 'q' = ({ root := wst0.root, active := none }, 0, none)
    ∧ inputChar { root := wst0.root, active := none } 'x'
      = ({ root := wst0.root, active := some wst0.root }, 1, none) :=
  ⟨rfl, rfl⟩

/-- C3: `Keymap.split "Meta-a"` raises instead of returning
`(ESC, "[LATIN SMALL LETTER A]")`: the meta branch for an ordinary
printable key passes the literal three-character string "key" — not the
key — to `unicodedata.name`, which raises `TypeError`. -/
theorem split_meta_a_raises :
    splitM "Meta-a" = .error "TypeError: name() argument 1 must be a unicode character" := by
  rfl

/-- C4: the `Location.shift` round trip fails.  On content whose items
each render to two screen lines, `shift 0` is the identity, but
`shift 1` from (item 1, offset 0) lands on (item 1, offset 1) and
shifting back by -1 lands on (item 0, offset 1) — the previous item —
instead of returning to (item 1, offset 0): the backward branch rejects
the in-block fast path (`-delta < offset` fails at offset 1) and its
`delta += offset - 1` accounting then overshoots by one line. -/
theorem location_shift_roundtrip_fails :
    shiftM 10 c4Content 1 0 0 = .ok (1, 0)
    ∧ shiftM 10 c4Content 1 0 1 = .ok (1, 1)
    ∧ shiftM 10 c4Content 1 1 (-1) = .ok (0, 1)
    ∧ ((0, 1) : Nat × Int) ≠ ((1, 0) : Nat × Int) :=
  ⟨rfl, rfl, rfl, by decide⟩

/-- C6: `TTYRenderer.reframe` selects its new head exactly as specified:
pagedown sets head := sill and returns; pageup uses backward budget
`height - 2 - head.offset`; a `None` target uses `height // 2`; a
non-negative target uses `min(height - 1, target)`; a negative target
uses `max(height + target, 0)`. -/
theorem reframe_head_selection (s : RFState) (t : Int) (tO : Option Int) :
    reframe s tO (some "pagedown")
      = .ok { s with headAnchor := s.sillAnchor, headOffset := s.sillOffset }
    ∧ reframe s tO (some "pageup") = reframeWalk s (s.height - 2 - s.headOffset)
    ∧ reframe s none none = reframeWalk s (Int.fdiv s.height 2)
    ∧ (0 ≤ t → reframe s (some t) none = reframeWalk s (min (s.height - 1) t))
    ∧ (t < 0 → reframe s (some t) none = reframeWalk s (max (s.height + t) 0)) := by
  refine ⟨by rfl, by rfl, by rfl, fun ht => ?_, fun ht => ?_⟩
  · have hre : reframe s (some t) none
        = reframeWalk s (if t ≥ 0 then min (s.height - 1) t else max (s.height + t) 0) :=
      rfl
    rw [hre, if_pos ht]
  · have hre : reframe s (some t) none
        = reframeWalk s (if t ≥ 0 then min (s.height - 1) t else max (s.height + t) 0) :=
      rfl
    rw [hre, if_neg (not_le.mpr ht)]

/-- C6 witness: the target-driven budgets at a concrete renderer state. -/
theorem reframe_head_selection_witness :
    reframe rfS0 (some 3) none = reframeWalk rfS0 (min (rfS0.height - 1) 3)
    ∧ reframe rfS0 (some (-3)) none = reframeWalk rfS0 (max (rfS0.height + -3) 0) :=
  ⟨(reframe_head_selection rfS0 3 none).2.2.2.1 (by decide),
    (reframe_head_selection rfS0 (-3) none).2.2.2.2 (by decide)⟩

/-- C7: the Keymap insert/lookup/delete round trip.  In a keymap with no
entry at `a` and a bound action at `c`: assigning at path "a b" then
reading "a b" returns the assigned value; deleting "a b" then reading
"a" returns the empty sub-keymap rather than raising; assigning "c d"
over the leaf at `c` raises the "is not a keymap" `KeyError` and leaves
the map unchanged. -/
theorem keymap_insert_lookup_delete_roundtrip
    (m : KmAList) (fuel : Nat) (v c0 w0 : Nat)
    (ha : alGet m (.ch 'a') = none)
    (hc : alGet m (.ch 'c') = some (.act c0)) :
    kmSetS (fuel + 1 + 1) m "a b" (.act v)
      = (alSet m (.ch 'a') (.sub [(.ch 'b', .act v)]), none)
    ∧ kmGetS (fuel + 1 + 1) (alSet m (.ch 'a') (.sub [(.ch 'b', .act v)])) "a b"
      = .ok (.act v)
    ∧ kmDelS (fuel + 1 + 1) (alSet m (.ch 'a') (.sub [(.ch 'b', .act v)])) "a b"
      = (alSet m (.ch 'a') (.sub []), none)
    ∧ kmGetS (fuel + 1 + 1) (alSet m (.ch 'a') (.sub [])) "a" = .ok (.sub [])
    ∧ kmSetS (fuel + 1 + 1) (alSet m (.ch 'a') (.sub [])) "c d" (.act w0)
      = (alSet m (.ch 'a') (.sub []), some "KeyError: is not a keymap") := by
  have hs1 : splitM "a b" = .ok (some (.ch 'a'), some "b") := by rfl
  have hs2 : splitM "a" = .ok (some (.ch 'a'), none) := by rfl
  have hs3 : splitM "c d" = .ok (some (.ch 'c'), some "d") := by rfl
  have hs4 : splitM "b" = .ok (some (.ch 'b'), none) := by rfl
  refine ⟨?_, ?_, ?_, ?_, ?_⟩
  · simp [kmSetS, hs1, hs4, ha, alGet, alSet]
  · simp [kmGetS, hs1, hs4, alGet_alSet_same, alGet]
  · simp [kmDelS, hs1, hs4, alGet_alSet_same, alGet, alDel, alSet_alSet_same]
  · simp [kmGetS, hs2, alGet_alSet_same]
  · simp [kmSetS, hs3,
      alGet_alSet_ne m (.ch 'a') (.ch 'c') (.sub []) (by decide), hc]

/-- C7 witness: the round trip on the concrete keymap `km0` (which binds
only the bare key `c`). -/
theorem keymap_roundtrip_witness :
    kmSetS (2 + 1 + 1) km0 "a b" (.act 1)
      = (alSet km0 (.ch 'a') (.sub [(.ch 'b', .act 1)]), none)
    ∧ kmGetS (2 + 1 + 1) (alSet km0 (.ch 'a') (.sub [(.ch 'b', .act 1)])) "a b"
      = .ok (.act 1)
    ∧ kmDelS (2 + 1 + 1) (alSet km0 (.ch 'a') (.sub [(.ch 'b', .act 1)])) "a b"
      = (alSet km0 (.ch 'a') (.sub []), none)
    ∧ kmGetS (2 + 1 + 1) (alSet km0 (.ch 'a') (.sub [])) "a" = .ok (.sub [])
    ∧ kmSetS (2 + 1 + 1) (alSet km0 (.ch 'a') (.sub [])) "c d" (.act 9)
      = (alSet km0 (.ch 'a') (.sub []), some "KeyError: is not a keymap") :=
  keymap_insert_lookup_delete_roundtrip km0 2 1 7 9 rfl rfl

/-- C8: compiling "Control-X Control-C" yields the two-keystroke path
(0x18, 0x03): the first split returns (CAN, "Control-C") and splitting
the remainder returns (ETX, None). -/
theorem split_control_x_control_c :
    splitM "Control-X Control-C" = .ok (some (.ch '\x18'), some "Control-C")
    ∧ splitM "Control-C" = .ok (some (.ch '\x03'), none) :=
  ⟨by rfl, by rfl⟩

/-- C9: `Keymap.split` raises a hard error on a sequence-spec that does
not parse under the grammar, and on an unknown bracketed key name,
whereas well-formed but untypable combinations such as "Hyper-x" and
"Control-$" return the null pair without raising. -/
theorem split_malformed_errors_untypable_null :
    (∀ s : String, s.data.length ≠ 1 → parseKeySeq s = none →
      splitM s = .error ("TypeError: Invalid Key Sequence Specification " ++ s))
    ∧ (∀ (s : String) (mods : List String) (n : String) (rest : Option String),
        s.data.length ≠ 1 →
        parseKeySeq s = some (mods, .name n, rest) →
        unicodedataLookup (strUpper n) = none →
        otherKeysGet (strLower n) = none →
        ttyfeKeyGet (strUpper n) = none →
        splitM s = .error ("TypeError: unknown name: " ++ n))
    ∧ splitM "Hyper-x" = .ok (none, none)
    ∧ splitM "Control-$" = .ok (none, none) := by
  refine ⟨?_, ?_, by rfl, by rfl⟩
  · intro s h1 h2
    have hbody : splitM s
        = match parseKeySeq s with
          | none => .error ("TypeError: Invalid Key Sequence Specification " ++ s)
          | some (mods, kp, rest) => splitResolve mods kp rest := by
      rcases hd : s.data with _ | ⟨c, _ | ⟨d, t⟩⟩
      · unfold splitM; rw [hd]
      · rw [hd] at h1; simp at h1
      · unfold splitM; rw [hd]
    rw [hbody, h2]
  · intro s mods n rest h1 h2 h3 h4 h5
    have hbody : splitM s
        = match parseKeySeq s with
          | none => .error ("TypeError: Invalid Key Sequence Specification " ++ s)
          | some (mods, kp, rest) => splitResolve mods kp rest := by
      rcases hd : s.data with _ | ⟨c, _ | ⟨d, t⟩⟩
      · unfold splitM; rw [hd]
      · rw [hd] at h1; simp at h1
      · unfold splitM; rw [hd]
    rw [hbody, h2]
    simp only [splitResolve, h3, h4, h5]
    rfl

/-- C9 witness: a concrete unparseable spec and a concrete unknown
bracketed name, both hard errors. -/
theorem split_malformed_witness :
    splitM "frob" = .error ("TypeError: Invalid Key Sequence Specification " ++ "frob")
    ∧ splitM "[IPHONE 5C WITH DECORATIVE CASE]"
      = .error ("TypeError: unknown name: " ++ "IPHONE 5C WITH DECORATIVE CASE") :=
  ⟨split_malformed_errors_untypable_null.1 "frob" (by decide) (by rfl),
    split_malformed_errors_untypable_null.2.1 "[IPHONE 5C WITH DECORATIVE CASE]"
      [] "IPHONE 5C WITH DECORATIVE CASE" none (by decide) (by rfl) (by rfl) (by rfl)
      (by rfl)⟩

/-- C10: a well-formed but untypable sequence-spec (one `Keymap.split`
maps to the null pair) is a silent no-op on assignment, while reading
the same spec raises a missing-key error (`super().__getitem__(None)`
fires before the dead `if key is None` check). -/
theorem untypable_spec_setitem_noop_getitem_raises
    (spec : String) (m : KmAList) (v : KmEntry) (fuel : Nat)
    (h : splitM spec = .ok (none, none)) :
    kmSetS (fuel + 1) m spec v = (m, none)
    ∧ kmGetS (fuel + 1) m spec = .error "KeyError" := by
  constructor
  · simp only [kmSetS, h]
  · simp only [kmGetS, h]

/-- C10 witness: the untypable spec "Hyper-x" on a concrete keymap. -/
theorem untypable_spec_witness :
    kmSetS (0 + 1) [(.ch 'x', .act 3)] "Hyper-x" (.act 9) = ([(.ch 'x', .act 3)], none)
    ∧ kmGetS (0 + 1) [(.ch 'x', .act 3)] "Hyper-x" = .error "KeyError" :=
  untypable_spec_setitem_noop_getitem_raises "Hyper-x" [(.ch 'x', .act 3)] (.act 9) 0
    (by rfl)

end Snipe